import Mathlib

/-!
Verification of the pretty-rocm-smi telemetry dashboard (src/main.rs).

Modelling conventions for the shallow embedding:
* Rust strings are `List Char`; Rust `str::len` (UTF-8 byte count) is modelled
  by summing per-character UTF-8 sizes.
* Rust `f64` values are modelled as exact rationals `ℚ`; every arithmetic
  operation appearing in the source (comparison, addition, division by a
  nonzero quantity) is exact on the values the claims mention.
* Machine integers (`u32`, `u64`/`usize`) are `Nat` with explicit range
  checks where the source's `parse` can fail by overflow.
* Subprocess output is passed in as a parameter: `run_cmd`'s effect is split
  into the outcome of `Command::output()` (an explicit `ProcOutcome`) and the
  pure selection the source performs on it.
* Regex character classes `\d` and `\s` are modelled on their ASCII parts
  (`Char.isDigit`, `Char.isWhitespace`), which covers all inputs the
  diagnostic tool and the claims involve.
-/

/-- UTF-8 encoded size in bytes of one character, as produced by Rust
`String` storage; `str::len` is the sum of these. -/
def utf8SizeOf (c : Char) : Nat :=
  if c.toNat < 128 then 1
  else if c.toNat < 2048 then 2
  else if c.toNat < 65536 then 3
  else 4

/-- The ESC control character introducing the colour sequences of `mod ansi`. -/
def escChar : Char := '\x1b'

/-- ASCII whitespace test used to model Rust `char::is_whitespace`,
`str::trim` and `str::split_whitespace` on the inputs at hand. -/
def isWs (c : Char) : Bool := c.isWhitespace

/-- Value of a digit string, most significant first (the accumulator loop of
integer parsing). -/
def digitsVal (cs : List Char) : Nat :=
  cs.foldl (fun a c => 10 * a + (c.toNat - '0'.toNat)) 0

/-- Characters matched by the source regex class storing a number: `[\d.]`. -/
def isNumChar (c : Char) : Bool := c.isDigit || c == '.'

/-- Consume the body of a colour escape: `[0-9;]*` then the final letter m,
returning the remainder of the input after the match. -/
def ansiBody : List Char → Option (List Char)
  | [] => none
  | c :: cs =>
    if c = 'm' then some cs
    else if c.isDigit || c = ';' then ansiBody cs
    else none

/-- Worker for `stripAnsi`: removes every occurrence of the source regex
pattern ESC `[` `[0-9;]*` `m` (leftmost, non-overlapping), exactly as
`Regex::replace_all` does in `vlen`.  The fuel argument (instantiated with
the input length, an upper bound on the number of steps) makes the
recursion structural. -/
def stripAnsiGo : Nat → List Char → List Char
  | _, [] => []
  | 0, s => s
  | fuel + 1, c :: cs =>
    if c = escChar then
      match cs with
      | '[' :: rest =>
        match ansiBody rest with
        | some rest2 => stripAnsiGo fuel rest2
        | none => c :: stripAnsiGo fuel cs
      | _ => c :: stripAnsiGo fuel cs
    else c :: stripAnsiGo fuel cs

/-- Text with all colour/style escape sequences removed (`re.replace_all(s, "")`
in `vlen`). -/
def stripAnsi (s : List Char) : List Char := stripAnsiGo s.length s

/-- Source `vlen`: strips the ANSI escape sequences and then takes Rust
`str::len`, i.e. the UTF-8 byte count of what remains. -/
def vlen (s : List Char) : Nat := ((stripAnsi s).map utf8SizeOf).sum

/-- Source `rpad`: append spaces up to visible width `w`; no-op when the
visible length already meets or exceeds `w`. -/
def rpad (s : List Char) (w : Nat) : List Char :=
  if vlen s < w then s ++ List.replicate (w - vlen s) ' ' else s

/-- Source `lpad`: prepend spaces up to visible width `w`; no-op when the
visible length already meets or exceeds `w`. -/
def lpad (s : List Char) (w : Nat) : List Char :=
  if vlen s < w then List.replicate (w - vlen s) ' ' ++ s else s

/-- Rust `str::parse::<f64>` restricted to the strings reachable here: the
argument always comes from a run of the class `[\d.]`, so the accepted forms
are `digits`, `digits.digits?` and `.digits` (no sign, exponent or inf/nan).
More than one dot, a lone dot, or an empty string fail to parse. -/
def rustParseFloat (s : List Char) : Option ℚ :=
  if s.isEmpty then none
  else if !(s.all isNumChar) then none
  else if 1 < (s.filter (fun c => c == '.')).length then none
  else if !(s.any Char.isDigit) then none
  else
    let ip := s.takeWhile (fun c => !(c == '.'))
    let fp := (s.dropWhile (fun c => !(c == '.'))).drop 1
    some ((digitsVal ip : ℚ) + (digitsVal fp : ℚ) / (10 : ℚ) ^ fp.length)

/-- First match of the source regex `([\d.]+)`: the first maximal run of
digit-or-dot characters, if any. -/
def firstNumRun : List Char → Option (List Char)
  | [] => none
  | c :: cs =>
    if isNumChar c then some (c :: cs.takeWhile isNumChar) else firstNumRun cs

/-- Source `parse_float`: first `[\d.]+` run, parsed as `f64`, defaulting
to 0.0 when there is no run or the parse fails. -/
def parse_float (s : List Char) : ℚ :=
  match firstNumRun s with
  | some run => (rustParseFloat run).getD 0
  | none => 0

/-- Rust unsigned-integer `str::parse`: optional leading plus, then a
nonempty digit string whose value must fit below `bound`. -/
def parseUIntAux (s : List Char) (bound : Nat) : Option Nat :=
  let t := match s with
    | '+' :: rest => rest
    | _ => s
  if t.isEmpty || !(t.all Char.isDigit) then none
  else if digitsVal t < bound then some (digitsVal t) else none

/-- `str::parse::<u32>`. -/
def parseU32 (s : List Char) : Option Nat := parseUIntAux s (2 ^ 32)

/-- `str::parse::<u64>` / `str::parse::<usize>` (64-bit target). -/
def parseU64 (s : List Char) : Option Nat := parseUIntAux s (2 ^ 64)

/-- Worker for `splitWs`, accumulating the current token (reversed). -/
def splitWsGo : List Char → List Char → List (List Char)
  | [], acc => if acc.isEmpty then [] else [acc.reverse]
  | c :: cs, acc =>
    if isWs c then
      if acc.isEmpty then splitWsGo cs [] else acc.reverse :: splitWsGo cs []
    else splitWsGo cs (c :: acc)

/-- Rust `str::split_whitespace` collected into a vector: maximal nonempty
runs of non-whitespace characters. -/
def splitWs (s : List Char) : List (List Char) := splitWsGo s []

/-- Rust `str::trim`: drop whitespace from both ends. -/
def trim (s : List Char) : List Char :=
  ((s.dropWhile isWs).reverse.dropWhile isWs).reverse

/-- The per-device record (`struct GpuSnapshot` of the source). -/
structure GpuSnapshot where
  id : Nat
  name : List Char
  gfx_ver : List Char
  temp : ℚ
  power : ℚ
  power_cap : ℚ
  gpu_pct : ℚ
  vram_total : Nat
  vram_used : Nat
deriving DecidableEq

/-- Rust `Default` derive for the snapshot: zeroes and empty strings. -/
def GpuSnapshot.default : GpuSnapshot :=
  { id := 0, name := [], gfx_ver := [], temp := 0, power := 0, power_cap := 0,
    gpu_pct := 0, vram_total := 0, vram_used := 0 }

/-- One line of the primary (no-argument) listing, as processed by the first
loop of `get_gpu_data`: trim; skip empty lines and lines not starting with an
ASCII digit; split on whitespace; require at least 15 tokens; parse the id as
`u32` (skipping the line if that fails); build a fresh snapshot from tokens
0, 4, 5, 13 and (when present) 15. -/
def parseLine (line : List Char) : Option GpuSnapshot :=
  match trim line with
  | [] => none
  | c :: l =>
    if c.isDigit then
      if (splitWs (c :: l)).length < 15 then none
      else
        match parseU32 ((splitWs (c :: l)).getD 0 []) with
        | some id =>
          some { GpuSnapshot.default with
            id := id,
            temp := parse_float ((splitWs (c :: l)).getD 4 []),
            power := parse_float ((splitWs (c :: l)).getD 5 []),
            power_cap := parse_float ((splitWs (c :: l)).getD 13 []),
            gpu_pct :=
              if 15 < (splitWs (c :: l)).length then
                parse_float ((splitWs (c :: l)).getD 15 [])
              else 0 }
        | none => none
    else none

/-- Primary enumeration: fold over the listing lines, pushing a snapshot for
every accepted line in encounter order (`gpus.push` in the source). -/
def primaryEnum (ls : List (List Char)) : List GpuSnapshot :=
  ls.foldl (fun acc line =>
    match parseLine line with
    | some g => acc ++ [g]
    | none => acc) []

/-- JSON values as parsed by serde_json (numbers as exact rationals; the
integer case of `as_u64` is the `den = 1`, in-range case). -/
inductive Json where
  | null : Json
  | bool (b : Bool) : Json
  | num (q : ℚ) : Json
  | str (s : List Char) : Json
  | arr (elems : List Json) : Json
  | obj (fields : List (List Char × Json)) : Json

/-- Map lookup on a parsed JSON object (keys are distinct in a parsed map). -/
def jGet (fields : List (List Char × Json)) (k : List Char) : Option Json :=
  (fields.find? (fun p => p.1 == k)).map Prod.snd

/-- `Value::get` on a JSON value: object lookup, `None` on anything else. -/
def jIndex : Json → List Char → Option Json
  | Json.obj fields, k => jGet fields k
  | _, _ => none

/-- `Value::as_str`. -/
def jAsStr : Json → Option (List Char)
  | Json.str s => some s
  | _ => none

/-- `Value::as_u64`: defined exactly on nonnegative integral numbers below
2^64. -/
def jAsU64 : Json → Option Nat
  | Json.num q =>
    if q.den = 1 ∧ 0 ≤ q.num ∧ q.num < (2 : ℤ) ^ 64 then some q.num.toNat
    else none
  | _ => none

/-- The source's byte-count extraction chain
`v.as_str().and_then(parse).or_else(as_u64).unwrap_or(0)`: accepts either a
numeric string or a numeric JSON value, defaulting to 0. -/
def jsonU64 (v : Json) : Nat :=
  (((jAsStr v).bind parseU64).orElse (fun _ => jAsU64 v)).getD 0

/-- Key of the total-bytes field of the VRAM JSON. -/
def totalKey : List Char := ("VRAM Total Memory (B)").toList

/-- Key of the used-bytes field of the VRAM JSON. -/
def usedKey : List Char := ("VRAM Total Used Memory (B)").toList

/-- The positional join key of memory enrichment: `format!("card{}", i)`. -/
def cardKey (i : Nat) : List Char := ("card").toList ++ (Nat.repr i).toList

/-- Apply one `card<i>` JSON entry to a snapshot: set `vram_total` and
`vram_used` from the two byte-count fields when present, leaving an absent
field untouched. -/
def updateMem (card : Json) (g : GpuSnapshot) : GpuSnapshot :=
  let g1 := match jIndex card totalKey with
    | some t => { g with vram_total := jsonU64 t }
    | none => g
  match jIndex card usedKey with
  | some u => { g1 with vram_used := jsonU64 u }
  | none => g1

/-- The `for (i, gpu) in gpus.iter_mut().enumerate()` loop of memory
enrichment, carrying the running positional index. -/
def enrichMemGo (map : List (List Char × Json)) : Nat → List GpuSnapshot → List GpuSnapshot
  | _, [] => []
  | i, g :: gs =>
    (match jGet map (cardKey i) with
     | some card => updateMem card g
     | none => g) :: enrichMemGo map (i + 1) gs

/-- Memory enrichment: runs only when the VRAM sub-command output parsed to a
JSON object (`if let Ok(Value::Object(map))`); otherwise the list is
returned unchanged.  The parameter is the result of `serde_json::from_str`
(`none` models a parse failure). -/
def enrichMem (parsed : Option Json) (gpus : List GpuSnapshot) : List GpuSnapshot :=
  match parsed with
  | some (Json.obj map) => enrichMemGo map 0 gpus
  | _ => gpus

/-- Literal of the product-name regex. -/
def cardSeriesLit : List Char := ("Card Series:").toList

/-- Match the source regex `GPU\[(\d+)\]\s*:\s*Card Series:\s*(.*)` at the
head of the input.  Returns (digits of capture 1, capture 2, rest of the
input after the match).  Each quantified class here is followed by a
character outside the class, so the greedy match is deterministic; `.`
does not cross a newline. -/
def matchNameAt : List Char → Option (List Char × List Char × List Char)
  | 'G' :: 'P' :: 'U' :: '[' :: rest =>
    let ds := rest.takeWhile Char.isDigit
    if ds.isEmpty then none
    else
      match rest.dropWhile Char.isDigit with
      | ']' :: r2 =>
        (match r2.dropWhile isWs with
         | ':' :: r4 =>
           let r5 := r4.dropWhile isWs
           if cardSeriesLit.isPrefixOf r5 then
             let r6 := r5.drop cardSeriesLit.length
             let r7 := r6.dropWhile isWs
             some (ds, r7.takeWhile (fun c => !(c == '\n')),
                   r7.dropWhile (fun c => !(c == '\n')))
           else none
         | _ => none)
      | _ => none
  | _ => none

/-- Worker for `nameMatches`: leftmost non-overlapping matches, advancing one
character on failure, as `captures_iter` does.  Fuel (instantiated with the
input length, an upper bound on the number of advances) keeps the recursion
structural. -/
def nameMatchesGo : Nat → List Char → List (List Char × List Char)
  | 0, _ => []
  | _, [] => []
  | fuel + 1, c :: cs =>
    match matchNameAt (c :: cs) with
    | some (ds, nm, rest) => (ds, nm) :: nameMatchesGo fuel rest
    | none => nameMatchesGo fuel cs

/-- All captures of the product-name regex over the sub-command output. -/
def nameMatches (s : List Char) : List (List Char × List Char) :=
  nameMatchesGo s.length s

/-- Apply one product-name capture: parse the bracketed index as `usize`
and, when it is in range, set `name` (trimmed) on the record at that
positional list index; out-of-range or unparseable indices are ignored. -/
def nameStep (gs : List GpuSnapshot) (p : List Char × List Char) : List GpuSnapshot :=
  match parseU64 p.1 with
  | some i =>
    if i < gs.length then
      gs.set i { gs.getD i GpuSnapshot.default with name := trim p.2 }
    else gs
  | none => gs

/-- Name enrichment over all captures of the product-name regex. -/
def enrichName (prod : List Char) (gpus : List GpuSnapshot) : List GpuSnapshot :=
  (nameMatches prod).foldl nameStep gpus

/-- One line of the hardware listing: trimmed lines starting with an ASCII
digit and splitting into at least 10 tokens set `gfx_ver` from token 4 on
the record at the positional index given by token 0 (when in range). -/
def hwLine (gpus : List GpuSnapshot) (line : List Char) : List GpuSnapshot :=
  match trim line with
  | [] => gpus
  | c :: l =>
    if c.isDigit then
      if 10 ≤ (splitWs (c :: l)).length then
        match parseU64 ((splitWs (c :: l)).getD 0 []) with
        | some id =>
          if id < gpus.length then
            gpus.set id
              { gpus.getD id GpuSnapshot.default with
                gfx_ver := (splitWs (c :: l)).getD 4 [] }
          else gpus
        | none => gpus
      else gpus
    else gpus

/-- Architecture enrichment over the hardware-listing lines. -/
def enrichHw (hw : List (List Char)) (gpus : List GpuSnapshot) : List GpuSnapshot :=
  hw.foldl hwLine gpus

/-- Source `get_gpu_data`, with the four sub-command outputs passed in:
primary enumeration, then memory, name and architecture enrichment in
order. -/
def get_gpu_data (concise : List (List Char)) (vram : Option Json)
    (prod : List Char) (hw : List (List Char)) : List GpuSnapshot :=
  enrichHw hw (enrichName prod (enrichMem vram (primaryEnum concise)))

namespace ansi

/-- `\x1b[0m`. -/
def RESET : List Char := ("\x1b[0m").toList

/-- `\x1b[1m`. -/
def BOLD : List Char := ("\x1b[1m").toList

/-- `\x1b[2m`. -/
def DIM : List Char := ("\x1b[2m").toList

/-- `\x1b[91m`. -/
def RED : List Char := ("\x1b[91m").toList

/-- `\x1b[92m`. -/
def GREEN : List Char := ("\x1b[92m").toList

/-- `\x1b[93m`. -/
def YELLOW : List Char := ("\x1b[93m").toList

/-- `\x1b[96m`. -/
def CYAN : List Char := ("\x1b[96m").toList

/-- `\x1b[97m`. -/
def WHITE : List Char := ("\x1b[97m").toList

end ansi

/-- Source `ansi_temp`: temperature severity colour. -/
def ansi_temp (val : ℚ) : List Char :=
  if 90 ≤ val then ansi.RED
  else if 75 ≤ val then ansi.YELLOW
  else if 50 ≤ val then ansi.WHITE
  else ansi.GREEN

/-- Source `ansi_ratio`: used/capacity ratio severity colour. -/
def ansi_ratio (ratio : ℚ) : List Char :=
  if (0.9 : ℚ) ≤ ratio then ansi.RED
  else if (0.7 : ℚ) ≤ ratio then ansi.YELLOW
  else if 0 < ratio then ansi.GREEN
  else ansi.DIM

/-- Source `bytes_to_gib`. -/
def bytes_to_gib (b : Nat) : ℚ := (b : ℚ) / (1024 * 1024 * 1024)

/-- Source `bytes_to_mib` (truncating integer division). -/
def bytes_to_mib (b : Nat) : Nat := b / (1024 * 1024)

/-- The guarded per-device power ratio of the row loop:
`if gpu.power_cap > 0.0 { gpu.power / gpu.power_cap } else { 0.0 }`. -/
def pwrRatioOf (g : GpuSnapshot) : ℚ :=
  if 0 < g.power_cap then g.power / g.power_cap else 0

/-- The guarded per-device VRAM ratio of the row loop:
`if gpu.vram_total > 0 { used as f64 / total as f64 } else { 0.0 }`. -/
def vramRatioOf (g : GpuSnapshot) : ℚ :=
  if 0 < g.vram_total then (g.vram_used : ℚ) / (g.vram_total : ℚ) else 0

/-- The guarded aggregate power ratio of the summary:
`if total_cap > 0.0 { total_power / total_cap } else { 0.0 }`. -/
def aggPwrRatioOf (gpus : List GpuSnapshot) : ℚ :=
  if 0 < (gpus.map GpuSnapshot.power_cap).sum then
    (gpus.map GpuSnapshot.power).sum / (gpus.map GpuSnapshot.power_cap).sum
  else 0

/-- The values reported on the summary line of `main`. -/
structure Summary where
  count : Nat
  usedGib : ℚ
  totalGib : ℚ
  totalPower : ℚ
  totalCap : ℚ
  avgTemp : ℚ
  powerColor : List Char
  tempColor : List Char
deriving DecidableEq

/-- The summary-line computation of `main` (lines 291-312): summed VRAM in
GiB, summed power and cap in watts, arithmetic mean temperature (0 when the
device list is empty), and the two severity colours. -/
def summaryOf (gpus : List GpuSnapshot) : Summary :=
  { count := gpus.length,
    usedGib := bytes_to_gib ((gpus.map GpuSnapshot.vram_used).sum),
    totalGib := bytes_to_gib ((gpus.map GpuSnapshot.vram_total).sum),
    totalPower := (gpus.map GpuSnapshot.power).sum,
    totalCap := (gpus.map GpuSnapshot.power_cap).sum,
    avgTemp :=
      if !(gpus.map GpuSnapshot.temp).isEmpty then
        (gpus.map GpuSnapshot.temp).sum / ((gpus.map GpuSnapshot.temp).length : ℚ)
      else 0,
    powerColor := ansi_ratio (aggPwrRatioOf gpus),
    tempColor :=
      ansi_temp
        (if !(gpus.map GpuSnapshot.temp).isEmpty then
          (gpus.map GpuSnapshot.temp).sum / ((gpus.map GpuSnapshot.temp).length : ℚ)
        else 0) }

/-- Outcome of `Command::new(cmd).args(args).output()`: `spawnErr` is the
`Err` case (binary missing, I/O failure while spawning or waiting); `ran`
is the `Ok` case, which carries the captured standard output and the exit
status — a non-zero exit still yields `Ok`. -/
inductive ProcOutcome where
  | spawnErr : ProcOutcome
  | ran (stdout : List Char) (exitCode : Int) : ProcOutcome
deriving DecidableEq

/-- Pure part of the source `run_cmd`:
`output().map(|o| from_utf8_lossy(&o.stdout)).unwrap_or_default()` — the
captured stdout on `Ok` (regardless of exit status), empty text on `Err`. -/
def runCmd : ProcOutcome → List Char
  | ProcOutcome.spawnErr => []
  | ProcOutcome.ran out _ => out

/-- Take the leading run of digits with at most one embedded decimal point
(the `seen` flag records whether the point was already consumed). -/
def takeOneDot : List Char → Bool → List Char
  | [], _ => []
  | c :: cs, seen =>
    if c.isDigit then c :: takeOneDot cs seen
    else if c == '.' && !seen then c :: takeOneDot cs true
    else []

/-- Modelled from the spec: `extract_number` as §4.2 words it — "finds the
first maximal run of digits and at most one decimal point; parses it;
returns 0.0 if none found or parse fails".  Used only to compare the spec's
wording against the source `parse_float`, whose run may contain any number
of decimal points. -/
def extract_number_spec : List Char → ℚ
  | [] => 0
  | c :: cs =>
    if isNumChar c then (rustParseFloat (takeOneDot (c :: cs) false)).getD 0
    else extract_number_spec cs

/-- The two-device example of the spec's end-to-end property: id 0 with
temperature 92, power 300/320 W, VRAM 20/24 GiB, utilization 95 %, and id 1
with temperature 40, power 50/300 W, VRAM 1/16 GiB, utilization 0 %. -/
def exGpus : List GpuSnapshot :=
  [({ GpuSnapshot.default with
      id := 0, temp := 92, power := 300, power_cap := 320, gpu_pct := 95,
      vram_total := 24 * 1073741824, vram_used := 20 * 1073741824 }),
   ({ GpuSnapshot.default with
      id := 1, temp := 40, power := 50, power_cap := 300, gpu_pct := 0,
      vram_total := 16 * 1073741824, vram_used := 1073741824 })]

/-- The fields of a snapshot set by primary enumeration and touched by no
enrichment step: id, temperature, power, power cap and utilization. -/
def coreEq (a b : GpuSnapshot) : Prop :=
  a.id = b.id ∧ a.temp = b.temp ∧ a.power = b.power ∧ a.power_cap = b.power_cap
  ∧ a.gpu_pct = b.gpu_pct

/-- Memory enrichment may touch only the two VRAM fields. -/
def keepAllButVram (a b : GpuSnapshot) : Prop :=
  coreEq a b ∧ a.name = b.name ∧ a.gfx_ver = b.gfx_ver

/-- Name enrichment may touch only the name field. -/
def keepAllButName (a b : GpuSnapshot) : Prop :=
  coreEq a b ∧ a.gfx_ver = b.gfx_ver ∧ a.vram_total = b.vram_total
  ∧ a.vram_used = b.vram_used

/-- Architecture enrichment may touch only the gfx-version field. -/
def keepAllButGfx (a b : GpuSnapshot) : Prop :=
  coreEq a b ∧ a.name = b.name ∧ a.vram_total = b.vram_total
  ∧ a.vram_used = b.vram_used

/-! ## Helper lemmas -/

/-- Every character of the first numeric run occurs in the input. -/
theorem firstNumRun_subset :
    ∀ (s run : List Char), firstNumRun s = some run → ∀ c ∈ run, c ∈ s := by
  intro s
  induction s with
  | nil => intro run h; simp [firstNumRun] at h
  | cons a s ih =>
    intro run h c hc
    by_cases ha : isNumChar a = true
    · simp only [firstNumRun, ha, if_true, Option.some.injEq] at h
      subst h
      rcases List.mem_cons.mp hc with hc | hc
      · exact hc ▸ List.mem_cons_self a s
      · exact List.mem_cons_of_mem a (List.takeWhile_subset _ hc)
    · simp only [firstNumRun, ha, if_false, Bool.false_eq_true] at h
      exact List.mem_cons_of_mem a (ih run h c hc)

/-- A run without any digit never parses as a float. -/
theorem rustParseFloat_no_digit (s : List Char)
    (h : s.any Char.isDigit = false) : rustParseFloat s = none := by
  unfold rustParseFloat
  split_ifs with h1 h2 h3 h4 <;> try rfl
  exfalso
  rw [h] at h4
  simp at h4

/-- A run with more than one decimal point never parses as a float. -/
theorem rustParseFloat_multidot (s : List Char)
    (h : 1 < (s.filter (fun c => c == '.')).length) : rustParseFloat s = none := by
  unfold rustParseFloat
  split_ifs with h1 h2 <;> rfl

/-! ## Claim theorems -/

/-- Claim C1 (code bug evidence): `vlen` of a string made only of colour
escape sequences is 0 and `vlen` of ASCII plain text equals its character
count, but the function returns the UTF-8 byte count of the stripped text,
not the character count: on the plain text `°C` — which the renderer itself
feeds to `lpad`/`rpad` in every temperature cell — it answers 3 although the
character count is 2, so the fixed-width box accounting the spec requires to
be exact is off by one for every degree sign. -/
theorem vlen_utf8_bytes_not_chars :
    vlen (ansi.RED ++ ansi.RESET) = 0
  ∧ vlen (("abc").toList) = 3
  ∧ vlen (("92°C").toList) = 5
  ∧ (("92°C").toList).length = 4
  ∧ vlen (("°C").toList) = 3
  ∧ (("°C").toList).length = 2 := by
  decide

/-- Claim C2 (counterexample): the claim says a non-zero exit status makes
`run_cmd` return empty text, but `Command::output()` returns `Ok` with the
captured stdout for a child that ran and exited non-zero, and the source
takes that stdout without inspecting the status: exit code 1 with stdout
`oops` yields `oops`, not the empty string. -/
theorem runCmd_nonzero_exit_counterexample :
    runCmd (ProcOutcome.ran (("oops").toList) 1) = ("oops").toList
  ∧ ("oops").toList ≠ ([] : List Char) := by
  decide

/-- Claim C2 (amended): on any error launching or waiting on the program
(binary missing, I/O failure) `run_cmd` returns empty text rather than
propagating an error; when the program runs, its captured standard output is
returned regardless of exit status; the function is total, so it never fails
the process. -/
theorem runCmd_amended :
    runCmd ProcOutcome.spawnErr = []
  ∧ ∀ (out : List Char) (code : Int), runCmd (ProcOutcome.ran out code) = out :=
  ⟨rfl, fun _ _ => rfl⟩

/-- Claim C3 (counterexample): the claim says the extractor takes the first
maximal run of digits with at most one decimal point, which on `1.2.3` would
be `1.2`, parsing to 1.2; but the source regex `([\d.]+)` matches the whole
of `1.2.3`, whose parse fails, so `parse_float` answers 0. -/
theorem parse_float_multidot_counterexample :
    parse_float (("1.2.3").toList) = 0
  ∧ extract_number_spec (("1.2.3").toList) = 6 / 5
  ∧ (6 / 5 : ℚ) ≠ 0 := by
  refine ⟨?_, ?_, by norm_num⟩
  · simp +decide [parse_float, firstNumRun, rustParseFloat, isNumChar, digitsVal]
  · simp +decide [extract_number_spec, takeOneDot, rustParseFloat, isNumChar, digitsVal]
    norm_num

/-- Claim C3 (amended): `parse_float` finds the first maximal run of
digit-or-decimal-point characters and parses it, returning 0.0 when no run
exists or the parse fails — in particular whenever the matched run carries
more than one decimal point; any input containing no digit at all yields
exactly 0.0, and trailing units are tolerated: `45.2C` gives 45.2, `45.0C`
gives 45, `120W` gives 120. -/
theorem parse_float_amended : ∀ s : List Char,
    ((s.all fun c => !c.isDigit) = true → parse_float s = 0)
  ∧ (∀ run, firstNumRun s = some run →
      1 < (run.filter (fun c => c == '.')).length → parse_float s = 0)
  ∧ parse_float (("45.2C").toList) = 45.2
  ∧ parse_float (("45.0C").toList) = 45
  ∧ parse_float (("120W").toList) = 120 := by
  intro s
  refine ⟨?_, ?_, ?_, ?_, ?_⟩
  · intro h
    cases hr : firstNumRun s with
    | none => unfold parse_float; rw [hr]
    | some run =>
      have hsub := firstNumRun_subset s run hr
      have hnod : run.any Char.isDigit = false := by
        rw [List.any_eq_false]
        intro c hc
        have := List.all_eq_true.mp h c (hsub c hc)
        simpa using this
      have hstep : parse_float s = (rustParseFloat run).getD 0 := by
        unfold parse_float
        rw [hr]
      rw [hstep, rustParseFloat_no_digit run hnod]
      rfl
  · intro run hr hd
    have hstep : parse_float s = (rustParseFloat run).getD 0 := by
      unfold parse_float
      rw [hr]
    rw [hstep, rustParseFloat_multidot run hd]
    rfl
  · simp +decide [parse_float, firstNumRun, rustParseFloat, isNumChar, digitsVal]
    norm_num
  · simp +decide [parse_float, firstNumRun, rustParseFloat, isNumChar, digitsVal]
  · simp +decide [parse_float, firstNumRun, rustParseFloat, isNumChar, digitsVal]

/-- Claim C3 (witness): an input with no digit parses to exactly 0. -/
theorem parse_float_amended_witness :
    parse_float (("watts unknown").toList) = 0 :=
  (parse_float_amended (("watts unknown").toList)).1 (by decide)

/-- Primary enumeration pushes records in encounter order: the fold of the
source loop equals the in-order `filterMap` of the per-line parser. -/
theorem primaryEnum_eq_filterMap :
    ∀ ls : List (List Char), primaryEnum ls = ls.filterMap parseLine := by
  have hgo : ∀ (ls : List (List Char)) (acc : List GpuSnapshot),
      ls.foldl
        (fun acc line =>
          match parseLine line with
          | some g => acc ++ [g]
          | none => acc) acc
        = acc ++ ls.filterMap parseLine := by
    intro ls
    induction ls with
    | nil => intro acc; simp
    | cons l ls ih =>
      intro acc
      rw [List.foldl_cons, List.filterMap_cons]
      cases h : parseLine l with
      | some g =>
        simp only [h]
        rw [ih]
        simp
      | none =>
        simp only [h]
        rw [ih]
  intro ls
  simpa [primaryEnum] using hgo ls []

/-- Claim C4: in primary enumeration a listing line produces a record only if
its whitespace split has at least 15 tokens — shorter lines are skipped
without error or record — and every accepted line takes its id from token 0,
temperature from token 4, power from token 5, power cap from token 13 and
utilization from token 15 when present (else 0), leaving all other fields at
their defaults; accepted records are appended in encounter order. -/
theorem primary_enumeration_spec :
    ∀ (ls : List (List Char)) (line : List Char),
    primaryEnum ls = ls.filterMap parseLine
  ∧ ((splitWs (trim line)).length < 15 → parseLine line = none)
  ∧ (∀ g, parseLine line = some g →
      15 ≤ (splitWs (trim line)).length
    ∧ parseU32 ((splitWs (trim line)).getD 0 []) = some g.id
    ∧ g.temp = parse_float ((splitWs (trim line)).getD 4 [])
    ∧ g.power = parse_float ((splitWs (trim line)).getD 5 [])
    ∧ g.power_cap = parse_float ((splitWs (trim line)).getD 13 [])
    ∧ g.gpu_pct = (if 15 < (splitWs (trim line)).length
        then parse_float ((splitWs (trim line)).getD 15 []) else 0)
    ∧ g.name = [] ∧ g.gfx_ver = [] ∧ g.vram_total = 0 ∧ g.vram_used = 0) := by
  intro ls line
  refine ⟨primaryEnum_eq_filterMap ls, ?_, ?_⟩
  · intro hlt
    unfold parseLine
    cases htl : trim line with
    | nil => rfl
    | cons c l =>
      rw [htl] at hlt
      by_cases hd : c.isDigit = true
      · simp only [hd, reduceIte, if_pos hlt]
      · simp [hd]
  · intro g hg
    unfold parseLine at hg
    cases htl : trim line with
    | nil => rw [htl] at hg; exact absurd hg (by simp)
    | cons c l =>
      rw [htl] at hg
      by_cases hd : c.isDigit = true
      · simp only [hd, reduceIte] at hg
        by_cases hlen : (splitWs (c :: l)).length < 15
        · rw [if_pos hlen] at hg
          exact absurd hg (by simp)
        · rw [if_neg hlen] at hg
          cases hid : parseU32 ((splitWs (c :: l)).getD 0 []) with
          | none => rw [hid] at hg; exact absurd hg (by simp)
          | some id =>
            rw [hid] at hg
            have hrec := (Option.some.injEq _ _).mp hg
            subst hrec
            refine ⟨by omega, rfl, rfl, rfl, rfl, rfl, rfl, rfl, rfl, rfl⟩
      · simp [hd] at hg

/-- Claim C4 (witness): a digit-initial line with only three tokens yields no
record. -/
theorem primary_enumeration_witness :
    parseLine (("3 short line").toList) = none :=
  (primary_enumeration_spec [] (("3 short line").toList)).2.1 (by decide)

/-- Memory enrichment never changes the number of records. -/
theorem enrichMemGo_length (map : List (List Char × Json)) :
    ∀ (k : Nat) (gs : List GpuSnapshot), (enrichMemGo map k gs).length = gs.length := by
  intro k gs
  induction gs generalizing k with
  | nil => rfl
  | cons g gs ih => simp [enrichMemGo, ih]

/-- Pointwise description of memory enrichment: the record at position `i`
is joined with the JSON entry under key `card(k+i)`. -/
theorem enrichMemGo_getD (map : List (List Char × Json)) :
    ∀ (gs : List GpuSnapshot) (k i : Nat), i < gs.length →
      (enrichMemGo map k gs).getD i GpuSnapshot.default
        = (match jGet map (cardKey (k + i)) with
           | some card => updateMem card (gs.getD i GpuSnapshot.default)
           | none => gs.getD i GpuSnapshot.default) := by
  intro gs
  induction gs with
  | nil => intro k i h; simp at h
  | cons g gs ih =>
    intro k i h
    cases i with
    | zero => simp [enrichMemGo]
    | succ i =>
      have h2 : i < gs.length := by simpa using h
      have heq : k + 1 + i = k + (i + 1) := by omega
      have hh := ih (k + 1) i h2
      rw [heq] at hh
      simpa [enrichMemGo, List.getD_cons_succ] using hh

/-- Claim C5: memory enrichment joins the JSON mapping to records by the key
`card<positional-index>` — the record's position in the already-built list,
not its id field; for a matched record the byte counts are accepted whether
encoded as a numeric JSON value or as a numeric string (the concrete mapping
of the spec sets `vram_total_bytes` = 1073741824 from a string and
`vram_used_bytes` = 536870912 from a number, on a record whose id field is 7,
joined purely by position); missing keys leave the field untouched (0 for a
fresh record). -/
theorem mem_enrichment_spec :
    ∀ (map : List (List Char × Json)) (gpus : List GpuSnapshot) (i : Nat),
    (enrichMem (some (Json.obj map)) gpus).length = gpus.length
  ∧ (i < gpus.length →
      (jGet map (cardKey i) = none →
        (enrichMem (some (Json.obj map)) gpus).getD i GpuSnapshot.default
          = gpus.getD i GpuSnapshot.default)
    ∧ (∀ card, jGet map (cardKey i) = some card →
        (enrichMem (some (Json.obj map)) gpus).getD i GpuSnapshot.default
          = updateMem card (gpus.getD i GpuSnapshot.default)))
  ∧ (∀ g t u, updateMem (Json.obj [(totalKey, t), (usedKey, u)]) g
      = { g with vram_total := jsonU64 t, vram_used := jsonU64 u })
  ∧ (∀ g, updateMem (Json.obj []) g = g)
  ∧ jsonU64 (Json.str (("1073741824").toList)) = 1073741824
  ∧ jsonU64 (Json.num 536870912) = 536870912
  ∧ enrichMem (some (Json.obj
        [(cardKey 0, Json.obj [(totalKey, Json.str (("1073741824").toList)),
                               (usedKey, Json.num 536870912)])]))
      [{ GpuSnapshot.default with id := 7 }]
    = [({ GpuSnapshot.default with
          id := 7, vram_total := 1073741824, vram_used := 536870912 })] := by
  intro map gpus i
  refine ⟨enrichMemGo_length map 0 gpus, ?_, fun g t u => rfl, fun g => rfl,
    by decide, by decide, by decide⟩
  intro hi
  have h := enrichMemGo_getD map gpus 0 i hi
  rw [Nat.zero_add] at h
  constructor
  · intro hn
    rw [hn] at h
    simpa [enrichMem] using h
  · intro card hc
    rw [hc] at h
    simpa [enrichMem] using h

/-- Claim C5 (witness): position 0 of a one-record list receives the data
under key `card0`. -/
theorem mem_enrichment_witness :
    (enrichMem (some (Json.obj [(cardKey 0, Json.num 5)]))
        [GpuSnapshot.default]).getD 0 GpuSnapshot.default
      = updateMem (Json.num 5) GpuSnapshot.default :=
  ((mem_enrichment_spec [(cardKey 0, Json.num 5)] [GpuSnapshot.default] 0).2.1
      (by decide)).2 (Json.num 5) (by rfl)

/-- Claim C6: severity colour selection is a pure function of the threshold
boundaries — temperature ≥90 is critical (red), ≥75 warning (yellow), ≥50
nominal (white), below cool (green); exactly 90.0 is critical and 89.999 is
warning; a ratio ≥0.9 is critical, ≥0.7 warning, any positive ratio below
0.7 nominal (green), and a non-positive ratio idle (dim); exactly 0.0 is
idle; the four temperature colours are pairwise distinct and the idle colour
differs from nominal. -/
theorem severity_colors_spec : ∀ t r : ℚ,
    (90 ≤ t → ansi_temp t = ansi.RED)
  ∧ (75 ≤ t → t < 90 → ansi_temp t = ansi.YELLOW)
  ∧ (50 ≤ t → t < 75 → ansi_temp t = ansi.WHITE)
  ∧ (t < 50 → ansi_temp t = ansi.GREEN)
  ∧ ansi_temp 90 = ansi.RED
  ∧ ansi_temp 89.999 = ansi.YELLOW
  ∧ ((0.9 : ℚ) ≤ r → ansi_ratio r = ansi.RED)
  ∧ ((0.7 : ℚ) ≤ r → r < (0.9 : ℚ) → ansi_ratio r = ansi.YELLOW)
  ∧ (0 < r → r < (0.7 : ℚ) → ansi_ratio r = ansi.GREEN)
  ∧ (r ≤ 0 → ansi_ratio r = ansi.DIM)
  ∧ ansi_ratio 0 = ansi.DIM
  ∧ (ansi.RED ≠ ansi.YELLOW ∧ ansi.RED ≠ ansi.WHITE ∧ ansi.RED ≠ ansi.GREEN
     ∧ ansi.YELLOW ≠ ansi.WHITE ∧ ansi.YELLOW ≠ ansi.GREEN
     ∧ ansi.WHITE ≠ ansi.GREEN ∧ ansi.DIM ≠ ansi.GREEN) := by
  intro t r
  refine ⟨?_, ?_, ?_, ?_, ?_, ?_, ?_, ?_, ?_, ?_, ?_, by decide⟩
  · intro h
    unfold ansi_temp
    rw [if_pos h]
  · intro h75 h90
    unfold ansi_temp
    rw [if_neg (by linarith), if_pos h75]
  · intro h50 h75
    unfold ansi_temp
    rw [if_neg (by linarith), if_neg (by linarith), if_pos h50]
  · intro h50
    unfold ansi_temp
    rw [if_neg (by linarith), if_neg (by linarith), if_neg (by linarith)]
  · unfold ansi_temp
    norm_num
  · unfold ansi_temp
    norm_num
  · intro h
    unfold ansi_ratio
    rw [if_pos h]
  · intro h7 h9
    unfold ansi_ratio
    rw [if_neg (by linarith), if_pos h7]
  · intro h0 h7
    unfold ansi_ratio
    rw [if_neg (by linarith), if_neg (by linarith), if_pos h0]
  · intro h0
    unfold ansi_ratio
    rw [if_neg (by linarith), if_neg (by linarith), if_neg (by linarith)]
  · unfold ansi_ratio
    norm_num

/-- Claim C6 (witness): temperature 95 is coloured critical. -/
theorem severity_colors_witness : ansi_temp 95 = ansi.RED :=
  (severity_colors_spec 95 0).1 (by norm_num)

/-- Claim C7: `rpad` and `lpad` append/prepend exactly
`width - visible_length` spaces when the visible length is below the width,
and return the input unchanged (never truncating) otherwise; on plain text,
`rpad "ab" 5` gives `"ab   "` of length 5. -/
theorem padding_spec : ∀ (s : List Char) (w : Nat),
    (vlen s < w →
        rpad s w = s ++ List.replicate (w - vlen s) ' '
      ∧ lpad s w = List.replicate (w - vlen s) ' ' ++ s)
  ∧ (w ≤ vlen s → rpad s w = s ∧ lpad s w = s)
  ∧ rpad (("ab").toList) 5 = ("ab   ").toList
  ∧ (rpad (("ab").toList) 5).length = 5
  ∧ lpad (("ab").toList) 5 = ("   ab").toList := by
  intro s w
  refine ⟨?_, ?_, by decide, by decide, by decide⟩
  · intro h
    unfold rpad lpad
    rw [if_pos h, if_pos h]
    exact ⟨rfl, rfl⟩
  · intro h
    unfold rpad lpad
    rw [if_neg (by omega), if_neg (by omega)]
    exact ⟨rfl, rfl⟩

/-- Claim C7 (witness): padding a visible-length-1 string to width 3. -/
theorem padding_witness :
    rpad (("x").toList) 3
      = ("x").toList ++ List.replicate (3 - vlen (("x").toList)) ' ' :=
  ((padding_spec (("x").toList) 3).1 (by decide)).1

/-- Claim C8: the summary line reports the device count, the summed used and
total VRAM in GiB, the summed power and power cap in watts, and the
arithmetic mean temperature (0 when the device list is empty); on the
two-device example it reports 2 devices, 21.0/40 GiB VRAM, 350 W / 620 W
power, and average temperature 66 °C. -/
theorem summary_spec : ∀ gpus : List GpuSnapshot,
    (summaryOf gpus).count = gpus.length
  ∧ (gpus = [] → (summaryOf gpus).avgTemp = 0)
  ∧ (gpus ≠ [] →
      (summaryOf gpus).avgTemp * (gpus.length : ℚ) = (gpus.map GpuSnapshot.temp).sum)
  ∧ (summaryOf gpus).usedGib * (1024 * 1024 * 1024)
      = ((gpus.map GpuSnapshot.vram_used).sum : ℚ)
  ∧ (summaryOf gpus).totalGib * (1024 * 1024 * 1024)
      = ((gpus.map GpuSnapshot.vram_total).sum : ℚ)
  ∧ (summaryOf gpus).totalPower = (gpus.map GpuSnapshot.power).sum
  ∧ (summaryOf gpus).totalCap = (gpus.map GpuSnapshot.power_cap).sum
  ∧ (summaryOf exGpus).count = 2
  ∧ (summaryOf exGpus).usedGib = 21
  ∧ (summaryOf exGpus).totalGib = 40
  ∧ (summaryOf exGpus).totalPower = 350
  ∧ (summaryOf exGpus).totalCap = 620
  ∧ (summaryOf exGpus).avgTemp = 66 := by
  intro gpus
  refine ⟨rfl, ?_, ?_, ?_, ?_, rfl, rfl, rfl, ?_, ?_, ?_, ?_, ?_⟩
  · intro h
    subst h
    simp [summaryOf]
  · intro hne
    have hlen : gpus.length ≠ 0 := by
      cases gpus with
      | nil => exact absurd rfl hne
      | cons a l => simp
    have hq : ((gpus.map GpuSnapshot.temp).length : ℚ) ≠ 0 := by
      rw [List.length_map]
      exact_mod_cast hlen
    have hemp : (gpus.map GpuSnapshot.temp).isEmpty = false := by
      cases gpus with
      | nil => exact absurd rfl hne
      | cons a l => simp
    show (if !(gpus.map GpuSnapshot.temp).isEmpty then
        (gpus.map GpuSnapshot.temp).sum / ((gpus.map GpuSnapshot.temp).length : ℚ)
      else 0) * (gpus.length : ℚ) = (gpus.map GpuSnapshot.temp).sum
    rw [hemp]
    simp only [Bool.not_false, if_true]
    rw [← List.length_map gpus GpuSnapshot.temp]
    exact div_mul_cancel₀ _ hq
  · show bytes_to_gib ((gpus.map GpuSnapshot.vram_used).sum) * (1024 * 1024 * 1024) = _
    unfold bytes_to_gib
    rw [div_mul_cancel₀]
    norm_num
  · show bytes_to_gib ((gpus.map GpuSnapshot.vram_total).sum) * (1024 * 1024 * 1024) = _
    unfold bytes_to_gib
    rw [div_mul_cancel₀]
    norm_num
  · simp [summaryOf, exGpus, bytes_to_gib]
    norm_num
  · simp [summaryOf, exGpus, bytes_to_gib]
    norm_num
  · simp [summaryOf, exGpus]
    norm_num
  · simp [summaryOf, exGpus]
    norm_num
  · simp [summaryOf, exGpus]
    norm_num

/-- Claim C8 (witness): on the two-device example the mean temperature times
the device count recovers the summed temperatures (132 = 66 × 2). -/
theorem summary_witness :
    (summaryOf exGpus).avgTemp * (exGpus.length : ℚ)
      = (exGpus.map GpuSnapshot.temp).sum :=
  (summary_spec exGpus).2.2.1 (by simp [exGpus])

/-- Claim C9: every severity-ratio computation is guarded — a non-positive
power cap makes the per-device power ratio 0 (which selects the dim idle
tier), a zero VRAM total makes the VRAM ratio 0, and a non-positive summed
cap makes the aggregate power ratio 0; each ratio is either the guarded 0 or
an actual quotient with a positive divisor, so no ratio divides by zero. -/
theorem ratio_guard_spec : ∀ (g : GpuSnapshot) (gpus : List GpuSnapshot),
    (g.power_cap ≤ 0 →
        pwrRatioOf g = 0 ∧ ansi_ratio (pwrRatioOf g) = ansi.DIM)
  ∧ (pwrRatioOf g = 0 ∨ (0 < g.power_cap ∧ pwrRatioOf g = g.power / g.power_cap))
  ∧ (g.vram_total = 0 → vramRatioOf g = 0)
  ∧ (vramRatioOf g = 0 ∨ (0 < g.vram_total
      ∧ vramRatioOf g = (g.vram_used : ℚ) / (g.vram_total : ℚ)))
  ∧ ((gpus.map GpuSnapshot.power_cap).sum ≤ 0 → aggPwrRatioOf gpus = 0)
  ∧ (aggPwrRatioOf gpus = 0 ∨ (0 < (gpus.map GpuSnapshot.power_cap).sum
      ∧ aggPwrRatioOf gpus
          = (gpus.map GpuSnapshot.power).sum / (gpus.map GpuSnapshot.power_cap).sum)) := by
  intro g gpus
  refine ⟨?_, ?_, ?_, ?_, ?_, ?_⟩
  · intro h
    have h0 : pwrRatioOf g = 0 := by
      unfold pwrRatioOf
      rw [if_neg (by linarith)]
    refine ⟨h0, ?_⟩
    rw [h0]
    unfold ansi_ratio
    norm_num
  · by_cases hc : 0 < g.power_cap
    · exact Or.inr ⟨hc, by unfold pwrRatioOf; rw [if_pos hc]⟩
    · exact Or.inl (by unfold pwrRatioOf; rw [if_neg hc])
  · intro h
    unfold vramRatioOf
    rw [if_neg (by omega)]
  · by_cases hv : 0 < g.vram_total
    · exact Or.inr ⟨hv, by unfold vramRatioOf; rw [if_pos hv]⟩
    · exact Or.inl (by unfold vramRatioOf; rw [if_neg hv])
  · intro h
    unfold aggPwrRatioOf
    rw [if_neg (by linarith)]
  · by_cases hc : 0 < (gpus.map GpuSnapshot.power_cap).sum
    · exact Or.inr ⟨hc, by unfold aggPwrRatioOf; rw [if_pos hc]⟩
    · exact Or.inl (by unfold aggPwrRatioOf; rw [if_neg hc])

/-- Claim C9 (witness): the default record has cap 0, so its power ratio is
the guarded 0 and its colour is the dim idle tier. -/
theorem ratio_guard_witness :
    pwrRatioOf GpuSnapshot.default = 0
  ∧ ansi_ratio (pwrRatioOf GpuSnapshot.default) = ansi.DIM :=
  (ratio_guard_spec GpuSnapshot.default []).1 (by norm_num [GpuSnapshot.default])

/-- Reflexivity of the core-field relation. -/
theorem coreEq_refl (a : GpuSnapshot) : coreEq a a :=
  ⟨rfl, rfl, rfl, rfl, rfl⟩

/-- Transitivity of the core-field relation. -/
theorem coreEq_trans (a b c : GpuSnapshot) (h1 : coreEq a b) (h2 : coreEq b c) :
    coreEq a c :=
  ⟨h1.1.trans h2.1, h1.2.1.trans h2.2.1, h1.2.2.1.trans h2.2.2.1,
   h1.2.2.2.1.trans h2.2.2.2.1, h1.2.2.2.2.trans h2.2.2.2.2⟩

/-- Reflexivity of the memory-step frame relation. -/
theorem keepAllButVram_refl (a : GpuSnapshot) : keepAllButVram a a :=
  ⟨coreEq_refl a, rfl, rfl⟩

/-- Reflexivity of the name-step frame relation. -/
theorem keepAllButName_refl (a : GpuSnapshot) : keepAllButName a a :=
  ⟨coreEq_refl a, rfl, rfl, rfl⟩

/-- Transitivity of the name-step frame relation. -/
theorem keepAllButName_trans (a b c : GpuSnapshot)
    (h1 : keepAllButName a b) (h2 : keepAllButName b c) : keepAllButName a c :=
  ⟨coreEq_trans a b c h1.1 h2.1, h1.2.1.trans h2.2.1,
   h1.2.2.1.trans h2.2.2.1, h1.2.2.2.trans h2.2.2.2⟩

/-- Reflexivity of the hardware-step frame relation. -/
theorem keepAllButGfx_refl (a : GpuSnapshot) : keepAllButGfx a a :=
  ⟨coreEq_refl a, rfl, rfl, rfl⟩

/-- Transitivity of the hardware-step frame relation. -/
theorem keepAllButGfx_trans (a b c : GpuSnapshot)
    (h1 : keepAllButGfx a b) (h2 : keepAllButGfx b c) : keepAllButGfx a c :=
  ⟨coreEq_trans a b c h1.1 h2.1, h1.2.1.trans h2.2.1,
   h1.2.2.1.trans h2.2.2.1, h1.2.2.2.trans h2.2.2.2⟩

/-- Setting position `i` changes `getD` only there. -/
theorem getD_set_self {α : Type} (l : List α) (i : Nat) (a d : α)
    (h : i < l.length) : (l.set i a).getD i d = a := by
  simp [List.getD_eq_getElem?_getD, List.getElem?_set_self, h]

/-- Setting position `i` leaves every other position unchanged. -/
theorem getD_set_ne {α : Type} (l : List α) (i j : Nat) (a d : α)
    (h : i ≠ j) : (l.set i a).getD j d = l.getD j d := by
  simp [List.getD_eq_getElem?_getD, List.getElem?_set_ne h]

/-- A fold whose every step preserves length and a reflexive-transitive
pointwise relation preserves both overall. -/
theorem foldl_frame {β : Type} (R : GpuSnapshot → GpuSnapshot → Prop)
    (hrefl : ∀ a, R a a)
    (htrans : ∀ a b c, R a b → R b c → R a c)
    (step : List GpuSnapshot → β → List GpuSnapshot)
    (hstep : ∀ gs b, (step gs b).length = gs.length
      ∧ ∀ i, R (gs.getD i GpuSnapshot.default) ((step gs b).getD i GpuSnapshot.default)) :
    ∀ (xs : List β) (gs : List GpuSnapshot),
      (xs.foldl step gs).length = gs.length
    ∧ ∀ i, R (gs.getD i GpuSnapshot.default)
        ((xs.foldl step gs).getD i GpuSnapshot.default) := by
  intro xs
  induction xs with
  | nil => intro gs; exact ⟨rfl, fun i => hrefl _⟩
  | cons x xs ih =>
    intro gs
    rw [List.foldl_cons]
    exact ⟨(ih (step gs x)).1.trans (hstep gs x).1,
           fun i => htrans _ _ _ ((hstep gs x).2 i) ((ih (step gs x)).2 i)⟩

/-- `updateMem` touches only the two VRAM fields. -/
theorem updateMem_keep (card : Json) (g : GpuSnapshot) :
    keepAllButVram g (updateMem card g) := by
  unfold updateMem
  cases jIndex card totalKey with
  | none =>
    cases jIndex card usedKey with
    | none => exact keepAllButVram_refl g
    | some u => exact ⟨coreEq_refl _, rfl, rfl⟩
  | some t =>
    cases jIndex card usedKey with
    | none => exact ⟨coreEq_refl _, rfl, rfl⟩
    | some u => exact ⟨coreEq_refl _, rfl, rfl⟩

/-- Memory enrichment preserves length and all non-VRAM fields. -/
theorem enrichMem_frame (mem : Option Json) (gpus : List GpuSnapshot) :
    (enrichMem mem gpus).length = gpus.length
  ∧ ∀ i, keepAllButVram (gpus.getD i GpuSnapshot.default)
      ((enrichMem mem gpus).getD i GpuSnapshot.default) := by
  cases mem with
  | none => exact ⟨rfl, fun i => keepAllButVram_refl _⟩
  | some v =>
    cases v with
    | null => exact ⟨rfl, fun i => keepAllButVram_refl _⟩
    | bool b => exact ⟨rfl, fun i => keepAllButVram_refl _⟩
    | num q => exact ⟨rfl, fun i => keepAllButVram_refl _⟩
    | str s => exact ⟨rfl, fun i => keepAllButVram_refl _⟩
    | arr l => exact ⟨rfl, fun i => keepAllButVram_refl _⟩
    | obj map =>
      refine ⟨enrichMemGo_length map 0 gpus, fun i => ?_⟩
      show keepAllButVram _ ((enrichMemGo map 0 gpus).getD i GpuSnapshot.default)
      by_cases hi : i < gpus.length
      · have h := enrichMemGo_getD map gpus 0 i hi
        rw [Nat.zero_add] at h
        rw [h]
        cases jGet map (cardKey i) with
        | some card => exact updateMem_keep card _
        | none => exact keepAllButVram_refl _
      · have h1 : gpus.length ≤ i := by omega
        have h2 : (enrichMemGo map 0 gpus).length ≤ i := by
          rw [enrichMemGo_length]
          omega
        rw [List.getD_eq_default _ _ h1, List.getD_eq_default _ _ h2]
        exact keepAllButVram_refl _

/-- Setting one in-range position to a related record preserves length and
the pointwise relation everywhere. -/
theorem setAt_frame (R : GpuSnapshot → GpuSnapshot → Prop)
    (hrefl : ∀ a, R a a) (gs : List GpuSnapshot) (i : Nat) (a : GpuSnapshot)
    (h : i < gs.length) (ha : R (gs.getD i GpuSnapshot.default) a) :
    (gs.set i a).length = gs.length
  ∧ ∀ j, R (gs.getD j GpuSnapshot.default) ((gs.set i a).getD j GpuSnapshot.default) := by
  refine ⟨List.length_set gs i a, fun j => ?_⟩
  by_cases hj : i = j
  · subst hj
    rw [getD_set_self _ _ _ _ h]
    exact ha
  · rw [getD_set_ne _ _ _ _ _ hj]
    exact hrefl _

/-- One name-enrichment step preserves length and all fields except `name`. -/
theorem nameStep_frame (gs : List GpuSnapshot) (p : List Char × List Char) :
    (nameStep gs p).length = gs.length
  ∧ ∀ j, keepAllButName (gs.getD j GpuSnapshot.default)
      ((nameStep gs p).getD j GpuSnapshot.default) := by
  cases hp : parseU64 p.1 with
  | none =>
    have hred : nameStep gs p = gs := by
      unfold nameStep
      rw [hp]
    rw [hred]
    exact ⟨rfl, fun j => keepAllButName_refl _⟩
  | some i =>
    have hred : nameStep gs p
        = if i < gs.length then
            gs.set i { gs.getD i GpuSnapshot.default with name := trim p.2 }
          else gs := by
      unfold nameStep
      rw [hp]
    rw [hred]
    by_cases h : i < gs.length
    · rw [if_pos h]
      exact setAt_frame keepAllButName keepAllButName_refl gs i _ h
        ⟨coreEq_refl _, rfl, rfl, rfl⟩
    · rw [if_neg h]
      exact ⟨rfl, fun j => keepAllButName_refl _⟩

/-- One hardware-listing line preserves length and all fields except
`gfx_ver`. -/
theorem hwLine_frame (gs : List GpuSnapshot) (line : List Char) :
    (hwLine gs line).length = gs.length
  ∧ ∀ j, keepAllButGfx (gs.getD j GpuSnapshot.default)
      ((hwLine gs line).getD j GpuSnapshot.default) := by
  cases htl : trim line with
  | nil =>
    have hred : hwLine gs line = gs := by
      unfold hwLine
      rw [htl]
    rw [hred]
    exact ⟨rfl, fun j => keepAllButGfx_refl _⟩
  | cons c l =>
    by_cases hd : c.isDigit = true
    case neg =>
      have hred : hwLine gs line = gs := by
        unfold hwLine
        rw [htl]
        simp [hd]
      rw [hred]
      exact ⟨rfl, fun j => keepAllButGfx_refl _⟩
    case pos =>
    by_cases hlen : 10 ≤ (splitWs (c :: l)).length
    case neg =>
      have hred : hwLine gs line = gs := by
        unfold hwLine
        rw [htl]
        simp only [hd, reduceIte]
        rw [if_neg hlen]
      rw [hred]
      exact ⟨rfl, fun j => keepAllButGfx_refl _⟩
    case pos =>
    cases hp : parseU64 ((splitWs (c :: l)).getD 0 []) with
    | none =>
      have hred : hwLine gs line = gs := by
        unfold hwLine
        rw [htl]
        simp only [hd, reduceIte]
        rw [if_pos hlen, hp]
      rw [hred]
      exact ⟨rfl, fun j => keepAllButGfx_refl _⟩
    | some i =>
      have hred : hwLine gs line
          = if i < gs.length then
              gs.set i
                { gs.getD i GpuSnapshot.default with
                  gfx_ver := (splitWs (c :: l)).getD 4 [] }
            else gs := by
        unfold hwLine
        rw [htl]
        simp only [hd, reduceIte]
        rw [if_pos hlen, hp]
      rw [hred]
      by_cases h : i < gs.length
      · rw [if_pos h]
        exact setAt_frame keepAllButGfx keepAllButGfx_refl gs i _ h
          ⟨coreEq_refl _, rfl, rfl, rfl⟩
      · rw [if_neg h]
        exact ⟨rfl, fun j => keepAllButGfx_refl _⟩

/-- Claim C10: the three enrichment steps never add, remove or reorder
records and each touches only its own fields — memory enrichment changes at
most `vram_total`/`vram_used`, name enrichment at most `name`, architecture
enrichment at most `gfx_ver`; in particular the list length and every
record's id, temperature, power, power cap and utilization in
`get_gpu_data`'s result are exactly those of primary enumeration. -/
theorem enrichment_frame_spec :
    ∀ (concise : List (List Char)) (mem : Option Json) (prod : List Char)
      (hw : List (List Char)) (gpus : List GpuSnapshot),
    (enrichMem mem gpus).length = gpus.length
  ∧ (enrichName prod (enrichMem mem gpus)).length = gpus.length
  ∧ (enrichHw hw (enrichName prod (enrichMem mem gpus))).length = gpus.length
  ∧ (∀ i, keepAllButVram (gpus.getD i GpuSnapshot.default)
      ((enrichMem mem gpus).getD i GpuSnapshot.default))
  ∧ (∀ i, keepAllButName ((enrichMem mem gpus).getD i GpuSnapshot.default)
      ((enrichName prod (enrichMem mem gpus)).getD i GpuSnapshot.default))
  ∧ (∀ i, keepAllButGfx ((enrichName prod (enrichMem mem gpus)).getD i GpuSnapshot.default)
      ((enrichHw hw (enrichName prod (enrichMem mem gpus))).getD i GpuSnapshot.default))
  ∧ (get_gpu_data concise mem prod hw).length = (primaryEnum concise).length
  ∧ (∀ i, coreEq ((primaryEnum concise).getD i GpuSnapshot.default)
      ((get_gpu_data concise mem prod hw).getD i GpuSnapshot.default)) := by
  intro concise mem prod hw gpus
  have hname := foldl_frame keepAllButName keepAllButName_refl keepAllButName_trans
    nameStep nameStep_frame
  have hhw := foldl_frame keepAllButGfx keepAllButGfx_refl keepAllButGfx_trans
    hwLine hwLine_frame
  have h1 := enrichMem_frame mem gpus
  have h2 := hname (nameMatches prod) (enrichMem mem gpus)
  have h3 := hhw hw (enrichName prod (enrichMem mem gpus))
  have hc1 := enrichMem_frame mem (primaryEnum concise)
  have hc2 := hname (nameMatches prod) (enrichMem mem (primaryEnum concise))
  have hc3 := hhw hw (enrichName prod (enrichMem mem (primaryEnum concise)))
  refine ⟨h1.1, h2.1.trans h1.1, h3.1.trans (h2.1.trans h1.1), h1.2, h2.2, h3.2,
    hc3.1.trans (hc2.1.trans hc1.1), fun i => ?_⟩
  exact coreEq_trans _ _ _ ((hc1.2 i).1)
    (coreEq_trans _ _ _ ((hc2.2 i).1) ((hc3.2 i).1))
